import Mathlib

/-!
Verification development for the winpty agent controller (src/agent/Agent.cc).

The definitions below are a shallow embedding of the orchestration logic of
the agent: the framed control-channel poll loop, the spawn handler's pipe
readiness check and assertions, the auto-shutdown state machine, the resize
handler, freeze calibration and console-title synchronisation.  Wide strings
are modelled as lists of natural-number code units; byte buffers as lists of
naturals.  External collaborators (the OS CreateProcess call, the scraper,
DuplicateHandle, the UTF-8 converter, the console-freeze primitive) enter as
function parameters, matching the module boundary of the source file.
-/

namespace WinptyAgent

/-! ### Control channel framing: Agent::pollControlPipe

The control pipe's receive buffer is a list of bytes.  `leVal` is the value
of a little-endian byte sequence; peeking the 8-byte size header reads
`leVal (buf.take 8)`, defined whenever at least 8 bytes are buffered.
-/

/-- Value of a little-endian byte sequence (least significant byte first). -/
def leVal : List Nat → Nat
  | [] => 0
  | b :: rest => b % 256 + 256 * leVal rest

/-- State of the control channel that `pollControlPipe` reads and writes:
closed flag, buffered receive bytes, receive-buffer capacity, and whether
`shutdown()` has been requested. -/
structure ControlState where
  closed : Bool
  buf : List Nat
  readBufferSize : Nat
  shutdownStarted : Bool
deriving Repr, DecidableEq

/-- Outcome of the framing loop: either the loop breaks normally, leaving a
residual buffer, an updated receive capacity and the list of dispatched
frames (each frame is the full packet bytes, header included), or the
`ASSERT(packetSize >= sizeof(packetSize))` fires, leaving the buffer with the
offending frame still unconsumed at its front. -/
inductive LoopOut where
  | ok (buf : List Nat) (readBufferSize : Nat) (dispatched : List (List Nat))
  | fatal (buf : List Nat) (dispatched : List (List Nat))
deriving Repr, DecidableEq

/-- The `while (true)` body of `Agent::pollControlPipe`, with a fuel counter
standing in for the loop; every iteration that recurses consumes at least 8
bytes, so `fuel = buf.length` (as used by `controlLoop`) never runs out. -/
def controlLoopAux : Nat → List Nat → Nat → LoopOut
  | 0, buf, rbs => .ok buf rbs []
  | fuel + 1, buf, rbs =>
    if buf.length < 8 then
      -- peek returned fewer than sizeof(packetSize) bytes: break
      .ok buf rbs []
    else
      let packetSize := leVal (buf.take 8)
      if packetSize < 8 then
        -- ASSERT(packetSize >= sizeof(packetSize)) fails
        .fatal buf []
      else if buf.length < packetSize then
        -- bytesAvailable() < packetSize: maybe grow the buffer, then break
        .ok buf (if rbs < packetSize then packetSize else rbs) []
      else
        -- read exactly packetSize bytes and dispatch them
        match controlLoopAux fuel (buf.drop packetSize) rbs with
        | .ok b r d => .ok b r (buf.take packetSize :: d)
        | .fatal b d => .fatal b (buf.take packetSize :: d)

/-- The framing loop of `Agent::pollControlPipe`, entered with the current
receive buffer and receive capacity. -/
def controlLoop (buf : List Nat) (rbs : Nat) : LoopOut :=
  controlLoopAux buf.length buf rbs

/-- Result of one `pollControlPipe` call. -/
structure PollResult where
  state : ControlState
  dispatched : List (List Nat)
  fatal : Bool
deriving Repr, DecidableEq

/-- `Agent::pollControlPipe`: if the channel reports closed, begin orderly
shutdown and return without touching the buffer; otherwise run the framing
loop. -/
def pollControlPipe (s : ControlState) : PollResult :=
  if s.closed then
    { state := { s with shutdownStarted := true }, dispatched := [], fatal := false }
  else
    match controlLoop s.buf s.readBufferSize with
    | .ok b r d =>
      { state := { s with buf := b, readBufferSize := r }, dispatched := d, fatal := false }
    | .fatal b d =>
      { state := { s with buf := b }, dispatched := d, fatal := true }

/-! ### Spawn handler: Agent::handleStartProcessPacket -/

/-- A data pipe as the spawn handler sees it: its name and whether it is
still in the connecting state. -/
structure DataPipe where
  name : List Nat
  connecting : Bool
deriving Repr, DecidableEq

/-- The fields of a StartProcess request, in wire order. -/
structure SpawnRequest where
  spawnFlags : Nat
  wantProcessHandle : Bool
  wantThreadHandle : Bool
  program : List Nat
  cmdline : List Nat
  cwd : List Nat
  env : List Nat
  desktop : List Nat
deriving Repr, DecidableEq

/-- PROCESS_INFORMATION as returned by a successful CreateProcessW. -/
structure ProcInfo where
  hProcess : Nat
  hThread : Nat
  dwProcessId : Nat
deriving Repr, DecidableEq

/-- A reply packet written to the control pipe, by payload. -/
inductive ReplyPacket where
  | pipesStillOpen (pendingNames : List Nat)
  | processCreated (processHandle : Nat) (threadHandle : Nat)
  | createProcessFailed (lastError : Nat)
  | emptyAck
deriving Repr, DecidableEq

/-- The slice of agent state that the spawn handler reads and writes. -/
structure SpawnState where
  conin : DataPipe
  conout : DataPipe
  conerr : Option DataPipe
  childProcess : Option Nat
  autoShutdown : Bool
  closingOutputPipes : Bool
deriving Repr, DecidableEq

/-- Modelled from the spec: the auto-shutdown bit of `spawnFlags`
(WINPTY_SPAWN_FLAG_AUTO_SHUTDOWN from the constants header, which is not
part of this file's sources). -/
def WINPTY_SPAWN_FLAG_AUTO_SHUTDOWN : Nat := 1

/-- One step of the pending-pipe-list accumulation in
`Agent::handleStartProcessPacket`: skip a null or connected pipe; otherwise
append `", "` (only when the list is already nonempty) and the pipe name. -/
def appendPendingName (acc : List Nat) (p : Option DataPipe) : List Nat :=
  match p with
  | none => acc
  | some pipe =>
    if pipe.connecting then
      (if acc = [] then acc else acc ++ [44, 32]) ++ pipe.name
    else acc

/-- The pending-pipe list built by the readiness check, iterating over
`{ m_coninPipe, m_conoutPipe, m_conerrPipe }` in creation order. -/
def pendingPipeList (s : SpawnState) : List Nat :=
  List.foldl appendPendingName [] [some s.conin, some s.conout, s.conerr]

/-- Outcome of a StartProcess request: a fatal assertion, or exactly one
reply packet together with the successor state. -/
inductive SpawnOutcome where
  | fatalAssert
  | reply (packet : ReplyPacket) (s : SpawnState)
deriving Repr, DecidableEq

/-- `Agent::handleStartProcessPacket`.  `parsed` is the result of decoding
the request fields (`none` models a DecodeError, which the caller converts
into a fatal assertion); `osCreateProcess` is the external CreateProcessW
call, returning either PROCESS_INFORMATION or a last-error code; `dup` is
the external DuplicateHandle.  The two ASSERTs precede field parsing. -/
def handleStartProcessPacket (s : SpawnState) (parsed : Option SpawnRequest)
    (osCreateProcess : SpawnRequest → Except Nat ProcInfo)
    (dup : Nat → Nat) : SpawnOutcome :=
  if s.childProcess.isSome then .fatalAssert
  else if s.closingOutputPipes then .fatalAssert
  else
    match parsed with
    | none => .fatalAssert
    | some req =>
      let pipeList := pendingPipeList s
      if pipeList ≠ [] then
        .reply (.pipesStillOpen pipeList) s
      else
        match osCreateProcess req with
        | .ok pi =>
          let replyProcess := if req.wantProcessHandle then dup pi.hProcess else 0
          let replyThread := if req.wantThreadHandle then dup pi.hThread else 0
          .reply (.processCreated replyProcess replyThread)
            { s with childProcess := some pi.hProcess,
                     autoShutdown := (req.spawnFlags &&& WINPTY_SPAWN_FLAG_AUTO_SHUTDOWN) != 0 }
        | .error lastError =>
          .reply (.createProcessFailed lastError) s

/-- The names of the not-yet-connected data pipes in creation order (input,
primary output, secondary output), written from the specification's words
for comparison with `pendingPipeList`. -/
def specConnectingNames (s : SpawnState) : List (List Nat) :=
  ((([some s.conin, some s.conout, s.conerr].filterMap id).filter
      (fun p => p.connecting)).map (fun p => p.name))

/-- Comma-joined list of names, written from the specification's words. -/
def specCommaJoin : List (List Nat) → List Nat
  | [] => []
  | [n] => n
  | n :: rest => n ++ [44, 32] ++ specCommaJoin rest

/-! ### Auto-shutdown state machine: Agent::onPollTimeout and
Agent::autoClosePipesForShutdown -/

/-- An outbound data pipe as the shutdown logic sees it. -/
structure OutPipe where
  closed : Bool
  bytesToSend : Nat
deriving Repr, DecidableEq

/-- The slice of agent state that the poll-timeout tick reads and writes.
`childProcess = some e` tracks a live child handle whose exit status `e`
is what `WaitForSingleObject(h, 0) == WAIT_OBJECT_0` would report. -/
structure LoopState where
  conout : OutPipe
  conerr : Option OutPipe
  closingOutputPipes : Bool
  autoShutdown : Bool
  childProcess : Option Bool
deriving Repr, DecidableEq

/-- The per-pipe body of `Agent::autoClosePipesForShutdown`: close the pipe
if it is not yet closed and its pending send bytes have reached zero. -/
def closeIfDrained (p : OutPipe) : OutPipe :=
  if !p.closed && p.bytesToSend == 0 then { p with closed := true } else p

/-- `Agent::autoClosePipesForShutdown`: only while in the closing phase,
close each outbound pipe (CONERR only when configured) once drained. -/
def autoClosePipesForShutdown (s : LoopState) : LoopState :=
  if s.closingOutputPipes then
    { s with conout := closeIfDrained s.conout,
             conerr := s.conerr.map closeIfDrained }
  else s

/-- Result of one `onPollTimeout` tick. -/
structure TickResult where
  state : LoopState
  scraped : Bool
  mouseModeEnabled : Bool
deriving Repr, DecidableEq

/-- `Agent::onPollTimeout`.  `enableMouseMode` is the value returned by the
input translator's `updateMouseInputFlags`; `scrapeOutBytes` and
`scrapeErrBytes` are the bytes the external title-sync/scrape pass appends
to the send queues of the primary and secondary output pipes.  The scrape
decision is latched before the exit check, so the transitioning tick still
scrapes once; the mouse flag and the auto-close pass observe the updated
closing flag. -/
def onPollTimeout (s : LoopState) (enableMouseMode : Bool)
    (scrapeOutBytes scrapeErrBytes : Nat) : TickResult :=
  let shouldScrapeContent := !s.closingOutputPipes
  let s1 :=
    if s.autoShutdown ∧ s.childProcess = some true then
      { s with childProcess := none, closingOutputPipes := true }
    else s
  let s2 :=
    if shouldScrapeContent then
      { s1 with
          conout := { s1.conout with bytesToSend := s1.conout.bytesToSend + scrapeOutBytes },
          conerr := s1.conerr.map
            (fun p => { p with bytesToSend := p.bytesToSend + scrapeErrBytes }) }
    else s1
  { state := autoClosePipesForShutdown s2,
    scraped := shouldScrapeContent,
    mouseModeEnabled := enableMouseMode && !s1.closingOutputPipes }

/-! ### Resize handler: Agent::handleSetSizePacket and Agent::resizeWindow -/

/-- The console geometry and the input translator's mouse rectangle, as an
abstract state acted on by the external scraper resize. -/
structure ResizeState where
  geometry : Nat
  mouseWindowRect : Nat
deriving Repr, DecidableEq

/-- `Agent::resizeWindow`: validate cols/rows against the fixed bounds
(`MAX_CONSOLE_WIDTH` and `BUFFER_LINE_COUNT` live in a header outside this
file, so they are parameters here); out-of-range values are logged and
ignored; in-range values run the freeze-guarded scraper resize and mouse
rectangle update, modelled by the external effect `eff`. -/
def resizeWindow (maxConsoleWidth bufferLineCount : Int)
    (eff : Int → Int → ResizeState → ResizeState)
    (s : ResizeState) (cols rows : Int) : ResizeState :=
  if cols < 1 || cols > maxConsoleWidth || rows < 1 || rows > bufferLineCount - 1 then
    s
  else
    eff cols rows s

/-- `Agent::handleSetSizePacket`: parse cols and rows, resize, and write
exactly one empty reply packet. -/
def handleSetSizePacket (maxConsoleWidth bufferLineCount : Int)
    (eff : Int → Int → ResizeState → ResizeState)
    (s : ResizeState) (cols rows : Int) : ResizeState × List ReplyPacket :=
  (resizeWindow maxConsoleWidth bufferLineCount eff s cols rows, [ReplyPacket.emptyAck])

/-! ### Freeze calibration: initConsoleFreezeMethod -/

/-- Console screen-buffer state touched by the calibration probe. -/
structure ProbeBuffer where
  bufWidth : Int
  bufHeight : Int
  winLeft : Int
  winTop : Int
  winRight : Int
  winBottom : Int
  cursorX : Int
  cursorY : Int
deriving Repr, DecidableEq

/-- Console freeze state: whether it is frozen and which syscommand a
freeze uses (`true` = Mark, `false` = SelectAll). -/
structure FreezeConsole where
  frozen : Bool
  freezeUsesMark : Bool
deriving Repr, DecidableEq

/-- The observable platform behaviour the probe depends on: the cursor
position reported while the console is frozen with the given primitive
(`true` = Mark, `false` = SelectAll), as a function of the cursor position
set before freezing. -/
structure FreezePlatform where
  cursorAfterFreeze : Bool → Int × Int → Int × Int

/-- `initConsoleFreezeMethod`: resize the buffer and window away from 1x1,
put the cursor at the probe coordinate (1, 1), freeze with Mark, test
whether the cursor moved, unfreeze, and keep Mark exactly when the probe
coordinate was unchanged.  `none` models the `ASSERT(!console.frozen())`
failing. -/
def initConsoleFreezeMethod (plat : FreezePlatform)
    (console : FreezeConsole) (buffer : ProbeBuffer) :
    Option (FreezeConsole × ProbeBuffer) :=
  let b1 := { buffer with bufWidth := max 2 buffer.bufWidth,
                          bufHeight := max 2 buffer.bufHeight }
  let b2 := { b1 with winLeft := 0, winTop := 0, winRight := 2, winBottom := 2 }
  let initialPosition : Int × Int := (1, 1)
  let b3 := { b2 with cursorX := initialPosition.1, cursorY := initialPosition.2 }
  if console.frozen then none
  else
    let c1 := { console with freezeUsesMark := true, frozen := true }
    let observed := plat.cursorAfterFreeze true (b3.cursorX, b3.cursorY)
    let useMark := observed == initialPosition
    let c2 := { c1 with frozen := false }
    some ({ c2 with freezeUsesMark := useMark }, b3)

/-! ### Title synchronisation: Agent::syncConsoleTitle -/

/-- The state `syncConsoleTitle` reads and writes: the console's current
title, the cached title, and the log of byte strings written to the primary
output pipe. -/
structure TitleState where
  consoleTitle : List Nat
  currentTitle : List Nat
  conoutWrites : List (List Nat)
deriving Repr, DecidableEq

/-- The escape sequence written for a title change:
`"\x1b]0;" + utf8FromWide(title) + "\x07"`, with the external UTF-8
converter as a parameter. -/
def titleCommand (utf8FromWide : List Nat → List Nat) (title : List Nat) : List Nat :=
  [27, 93, 48, 59] ++ utf8FromWide title ++ [7]

/-- `Agent::syncConsoleTitle`: write the title escape sequence and update
the cache exactly when the console title differs from the cache. -/
def syncConsoleTitle (utf8FromWide : List Nat → List Nat) (s : TitleState) : TitleState :=
  if s.consoleTitle ≠ s.currentTitle then
    { s with conoutWrites := s.conoutWrites ++ [titleCommand utf8FromWide s.consoleTitle],
             currentTitle := s.consoleTitle }
  else s

/-- Invariant of the framing loop, by outcome: the input buffer splits into
the dispatched frames followed by the residual buffer; the receive capacity
never shrinks; every dispatched frame is exactly as long as its declared
length, which is at least 8; and in the fatal case the offending frame sits
unconsumed at the front of the residual buffer with a declared length below
8. -/
def loopInv (buf : List Nat) (rbs : Nat) : LoopOut → Prop
  | .ok b r d =>
      buf = d.flatten ++ b ∧ rbs ≤ r ∧
      (∀ f ∈ d, f.length = leVal (f.take 8) ∧ 8 ≤ leVal (f.take 8)) ∧
      (b.length < 8 ∨ 8 ≤ leVal (b.take 8))
  | .fatal b d =>
      buf = d.flatten ++ b ∧ 8 ≤ b.length ∧ leVal (b.take 8) < 8 ∧
      ∀ f ∈ d, f.length = leVal (f.take 8) ∧ 8 ≤ leVal (f.take 8)

/-! ## Helper lemmas -/

theorem controlLoopAux_inv (fuel : Nat) :
    ∀ (buf : List Nat) (rbs : Nat), buf.length ≤ fuel →
      loopInv buf rbs (controlLoopAux fuel buf rbs) := by
  induction fuel with
  | zero =>
    intro buf rbs hle
    simp only [controlLoopAux, loopInv]
    exact ⟨by simp, le_rfl, by simp, Or.inl (by omega)⟩
  | succ fuel ih =>
    intro buf rbs hle
    simp only [controlLoopAux]
    split
    case isTrue h8 =>
      simp only [loopInv]
      exact ⟨by simp, le_rfl, by simp, Or.inl h8⟩
    case isFalse h8 =>
      split
      case isTrue hps =>
        simp only [loopInv]
        exact ⟨by simp, by omega, hps, by simp⟩
      case isFalse hps =>
        split
        case isTrue havail =>
          simp only [loopInv]
          refine ⟨by simp, ?_, by simp, Or.inr (by omega)⟩
          split <;> omega
        case isFalse havail =>
          have hlen : (buf.drop (leVal (buf.take 8))).length ≤ fuel := by
            rw [List.length_drop]
            omega
          have hinv := ih (buf.drop (leVal (buf.take 8))) rbs hlen
          have htake : buf.take (leVal (buf.take 8)) ++ buf.drop (leVal (buf.take 8)) = buf :=
            List.take_append_drop _ buf
          have hflen : (buf.take (leVal (buf.take 8))).length = leVal (buf.take 8) := by
            rw [List.length_take]
            omega
          have hf8 : (buf.take (leVal (buf.take 8))).take 8 = buf.take 8 := by
            rw [List.take_take, min_eq_left (by omega : 8 ≤ leVal (buf.take 8))]
          rcases hrec : controlLoopAux fuel (buf.drop (leVal (buf.take 8))) rbs with
            ⟨b, r, d⟩ | ⟨b, d⟩
          all_goals rw [hrec] at hinv
          · simp only [hrec, loopInv] at hinv ⊢
            obtain ⟨hjoin, hrle, hfr, hres⟩ := hinv
            refine ⟨?_, hrle, ?_, hres⟩
            · rw [List.flatten_cons, List.append_assoc, ← hjoin, htake]
            · intro f hf
              rcases List.mem_cons.mp hf with rfl | hfd
              · rw [hf8, hflen]
                exact ⟨rfl, by omega⟩
              · exact hfr f hfd
          · simp only [hrec, loopInv] at hinv ⊢
            obtain ⟨hjoin, hblen, hbval, hfr⟩ := hinv
            refine ⟨?_, hblen, hbval, ?_⟩
            · rw [List.flatten_cons, List.append_assoc, ← hjoin, htake]
            · intro f hf
              rcases List.mem_cons.mp hf with rfl | hfd
              · rw [hf8, hflen]
                exact ⟨rfl, by omega⟩
              · exact hfr f hfd

theorem controlLoop_inv (buf : List Nat) (rbs : Nat) :
    loopInv buf rbs (controlLoop buf rbs) :=
  controlLoopAux_inv buf.length buf rbs le_rfl

theorem foldl_appendPendingName_acc (ps : List (Option DataPipe)) :
    ∀ acc : List Nat, acc ≠ [] →
      List.foldl appendPendingName acc ps =
        acc ++ (((ps.filterMap id).filter (fun p => p.connecting)).map
          (fun p => [44, 32] ++ p.name)).flatten := by
  induction ps with
  | nil => intro acc hacc; simp
  | cons p t ih =>
    intro acc hacc
    match p with
    | none => simpa using ih acc hacc
    | some pipe =>
      by_cases hc : pipe.connecting
      · have h1 : appendPendingName acc (some pipe) = (acc ++ [44, 32]) ++ pipe.name := by
          simp [appendPendingName, hc, hacc]
        have h2 : (acc ++ [44, 32]) ++ pipe.name ≠ [] := by
          simp
        rw [List.foldl_cons, h1, ih _ h2]
        simp [hc, List.append_assoc]
      · have h1 : appendPendingName acc (some pipe) = acc := by
          simp [appendPendingName, hc]
        rw [List.foldl_cons, h1, ih acc hacc]
        simp [hc]

theorem specCommaJoin_cons (n : List Nat) (l : List (List Nat)) :
    specCommaJoin (n :: l) = n ++ (l.map (fun m => [44, 32] ++ m)).flatten := by
  induction l generalizing n with
  | nil => simp [specCommaJoin]
  | cons m r ih =>
    simp only [specCommaJoin]
    rw [ih m]
    simp [List.append_assoc]

theorem foldl_appendPendingName_spec (ps : List (Option DataPipe))
    (hn : ∀ p, some p ∈ ps → p.connecting = true → p.name ≠ []) :
    List.foldl appendPendingName [] ps =
      specCommaJoin (((ps.filterMap id).filter (fun p => p.connecting)).map
        (fun p => p.name)) := by
  induction ps with
  | nil => simp [specCommaJoin]
  | cons p t ih =>
    match p with
    | none =>
      simpa using ih (fun q hq => hn q (by simp [hq]))
    | some pipe =>
      by_cases hc : pipe.connecting
      · have hname : pipe.name ≠ [] := hn pipe (by simp) hc
        have h1 : appendPendingName [] (some pipe) = pipe.name := by
          simp [appendPendingName, hc]
        rw [List.foldl_cons, h1, foldl_appendPendingName_acc t pipe.name hname]
        have h2 : (((some pipe :: t).filterMap id).filter (fun p => p.connecting)).map
            (fun p => p.name) =
            pipe.name :: ((t.filterMap id).filter (fun p => p.connecting)).map
              (fun p => p.name) := by
          simp [hc]
        rw [h2, specCommaJoin_cons]
        simp only [List.map_map]
        rfl
      · have h1 : appendPendingName [] (some pipe) = [] := by
          simp [appendPendingName, hc]
        rw [List.foldl_cons, h1, ih (fun q hq => hn q (by simp [hq]))]
        simp [hc]

theorem specCommaJoin_ne_nil :
    ∀ l : List (List Nat), l ≠ [] → (∀ n ∈ l, n ≠ []) → specCommaJoin l ≠ []
  | [], hl, _ => absurd rfl hl
  | [n], _, hn => by simpa using hn n (by simp)
  | n :: m :: r, _, hn => by
    simp only [specCommaJoin, ne_eq, List.append_eq_nil]
    intro h
    exact hn n (by simp) h.1.1

/-! ## Claim theorems -/

/-- Claim C3: for every frame processed by the control-channel poll loop,
the loop consumes exactly the declared number of bytes, header included:
the prior buffer splits into the dispatched frames (in order) followed by
the residual buffer, and each dispatched frame's byte count equals the
value of its 8-byte length header. -/
theorem pollControl_consumes_declared_length (s : ControlState) :
    s.buf = (pollControlPipe s).dispatched.flatten ++ (pollControlPipe s).state.buf ∧
    ∀ f ∈ (pollControlPipe s).dispatched, f.length = leVal (f.take 8) := by
  unfold pollControlPipe
  split
  · simp
  · have hinv := controlLoop_inv s.buf s.readBufferSize
    rcases hrec : controlLoop s.buf s.readBufferSize with ⟨b, r, d⟩ | ⟨b, d⟩
    · rw [hrec] at hinv
      simp only [loopInv] at hinv
      simp only [hrec]
      exact ⟨hinv.1, fun f hf => (hinv.2.2.1 f hf).1⟩
    · rw [hrec] at hinv
      simp only [loopInv] at hinv
      simp only [hrec]
      exact ⟨hinv.1, fun f hf => (hinv.2.2.2 f hf).1⟩

/-- Witness for C3 at a concrete channel state holding a 9-byte frame and
an 8-byte frame. -/
theorem pollControl_consumes_declared_length_w :
    ([9, 0, 0, 0, 0, 0, 0, 0, 42] : List Nat).length =
      leVal (([9, 0, 0, 0, 0, 0, 0, 0, 42] : List Nat).take 8) :=
  (pollControl_consumes_declared_length
      ⟨false, [9, 0, 0, 0, 0, 0, 0, 0, 42, 8, 0, 0, 0, 0, 0, 0, 0], 64, false⟩).2
    [9, 0, 0, 0, 0, 0, 0, 0, 42] (by decide)

/-- Claim C4: with a peeked declared length `S` but fewer than `S` bytes
buffered, the framing loop dispatches nothing in that iteration and stops
reading, leaving the buffer untouched, and afterwards the receive-buffer
capacity is at least `S`. -/
theorem pollControl_partial_frame_waits (buf : List Nat) (rbs S : Nat)
    (hpeek : 8 ≤ buf.length) (hS : leVal (buf.take 8) = S)
    (hshort : buf.length < S) :
    controlLoop buf rbs = .ok buf (if rbs < S then S else rbs) [] ∧
    S ≤ (if rbs < S then S else rbs) := by
  obtain ⟨k, hk⟩ : ∃ k, buf.length = k + 1 := ⟨buf.length - 1, by omega⟩
  constructor
  · rw [controlLoop, hk]
    simp only [controlLoopAux]
    rw [hS, if_neg (by omega), if_neg (by omega), if_pos (by omega)]
  · split <;> omega

/-- Witness for C4: an 8-byte buffer declaring a 20-byte frame is left
intact, nothing is dispatched, and the capacity grows from 10 to 20. -/
theorem pollControl_partial_frame_waits_w :
    controlLoop [20, 0, 0, 0, 0, 0, 0, 0] 10 =
      .ok [20, 0, 0, 0, 0, 0, 0, 0] 20 [] ∧ (20 : Nat) ≤ 20 := by
  have h := pollControl_partial_frame_waits [20, 0, 0, 0, 0, 0, 0, 0] 10 20
    (by decide) (by decide) (by decide)
  simpa using h

/-- Claim C9: when the control channel reports closed at the start of a
poll, the controller begins orderly shutdown immediately, dispatches no
frame, and consumes no bytes of any partially buffered frame. -/
theorem pollControl_closed_begins_shutdown (s : ControlState)
    (h : s.closed = true) :
    pollControlPipe s =
      ⟨{ s with shutdownStarted := true }, [], false⟩ := by
  unfold pollControlPipe
  rw [if_pos h]

/-- Witness for C9 at a closed channel holding a partial frame. -/
theorem pollControl_closed_begins_shutdown_w :
    pollControlPipe ⟨true, [9, 0, 0], 64, false⟩ =
      ⟨⟨true, [9, 0, 0], 64, true⟩, [], false⟩ :=
  pollControl_closed_begins_shutdown ⟨true, [9, 0, 0], 64, false⟩ rfl

/-- Claim C10 (implicit): whenever the framing loop can peek a full 8-byte
header whose value is below 8, the fatal assertion fires before any bytes
of that frame are consumed: entering the loop on such a buffer yields the
fatal outcome with nothing dispatched and the buffer intact; the loop never
breaks normally while a sub-8 header is peekable (an ok residue either
lacks a full header or declares at least 8); a fatal residue is exactly a
peekable sub-8 header behind the already-dispatched frames; and every
frame that is ever dispatched has a declared length of at least 8 bytes. -/
theorem pollControl_header_at_least_eight (buf : List Nat) (rbs : Nat) :
    (8 ≤ buf.length → leVal (buf.take 8) < 8 →
        controlLoop buf rbs = .fatal buf []) ∧
    (∀ b r d, controlLoop buf rbs = .ok b r d →
        (b.length < 8 ∨ 8 ≤ leVal (b.take 8)) ∧ ∀ f ∈ d, 8 ≤ leVal (f.take 8)) ∧
    (∀ b d, controlLoop buf rbs = .fatal b d →
        buf = d.flatten ++ b ∧ 8 ≤ b.length ∧ leVal (b.take 8) < 8 ∧
        ∀ f ∈ d, 8 ≤ leVal (f.take 8)) := by
  refine ⟨?_, ?_, ?_⟩
  · intro hlen hval
    obtain ⟨k, hk⟩ : ∃ k, buf.length = k + 1 := ⟨buf.length - 1, by omega⟩
    rw [controlLoop, hk]
    simp only [controlLoopAux]
    rw [if_neg (by omega), if_pos hval]
  · intro b r d h
    have hinv := controlLoop_inv buf rbs
    rw [h] at hinv
    simp only [loopInv] at hinv
    exact ⟨hinv.2.2.2, fun f hf => (hinv.2.2.1 f hf).2⟩
  · intro b d h
    have hinv := controlLoop_inv buf rbs
    rw [h] at hinv
    simp only [loopInv] at hinv
    exact ⟨hinv.1, hinv.2.1, hinv.2.2.1, fun f hf => (hinv.2.2.2 f hf).2⟩

/-- Witness for C10: entering the loop on a buffer whose full 8-byte
header declares 3 faults at once, dispatching nothing and leaving the
buffer intact. -/
theorem pollControl_header_at_least_eight_w :
    controlLoop [3, 0, 0, 0, 0, 0, 0, 0] 0 =
      .fatal [3, 0, 0, 0, 0, 0, 0, 0] [] :=
  (pollControl_header_at_least_eight [3, 0, 0, 0, 0, 0, 0, 0] 0).1
    (by decide) (by decide)

/-- Claim C1: a StartProcess request handled while at least one data pipe
is still connecting is answered with exactly one PipesStillOpen reply whose
payload is the comma-joined names of exactly the not-yet-connected pipes in
creation order (input, primary output, secondary output), the state —
including the child-process record — is unchanged, and process creation is
never attempted (the outcome does not depend on the CreateProcess
function). -/
theorem startProcess_pipesStillOpen (s : SpawnState) (req : SpawnRequest)
    (os : SpawnRequest → Except Nat ProcInfo) (dup : Nat → Nat)
    (hchild : s.childProcess = none) (hclosing : s.closingOutputPipes = false)
    (hconn : s.conin.connecting = true ∨ s.conout.connecting = true ∨
      ∃ p, s.conerr = some p ∧ p.connecting = true)
    (hn1 : s.conin.name ≠ []) (hn2 : s.conout.name ≠ [])
    (hn3 : ∀ p, s.conerr = some p → p.name ≠ []) :
    handleStartProcessPacket s (some req) os dup =
      .reply (.pipesStillOpen (specCommaJoin (specConnectingNames s))) s := by
  have hnames : ∀ p, some p ∈ [some s.conin, some s.conout, s.conerr] →
      p.connecting = true → p.name ≠ [] := by
    intro p hp _
    rcases (by simpa using hp :
        p = s.conin ∨ p = s.conout ∨ some p = s.conerr) with
      rfl | rfl | h
    · exact hn1
    · exact hn2
    · exact hn3 p h.symm
  have hlist : pendingPipeList s = specCommaJoin (specConnectingNames s) := by
    unfold pendingPipeList specConnectingNames
    exact foldl_appendPendingName_spec _ hnames
  have hmem : ∃ p, p ∈ ([some s.conin, some s.conout, s.conerr].filterMap id) ∧
      p.connecting = true := by
    rcases hconn with h | h | ⟨p, hp, hc⟩
    · exact ⟨s.conin, by simp, h⟩
    · exact ⟨s.conout, by simp, h⟩
    · exact ⟨p, by simp [hp], hc⟩
  obtain ⟨p, hpmem, hpc⟩ := hmem
  have hspecne : specConnectingNames s ≠ [] := by
    apply List.ne_nil_of_mem
    show p.name ∈ specConnectingNames s
    unfold specConnectingNames
    exact List.mem_map_of_mem _ (List.mem_filter.mpr ⟨hpmem, by simpa using hpc⟩)
  have helemne : ∀ n ∈ specConnectingNames s, n ≠ [] := by
    intro n hns
    unfold specConnectingNames at hns
    obtain ⟨q, hqf, rfl⟩ := List.mem_map.mp hns
    obtain ⟨hqm, hqc⟩ := List.mem_filter.mp hqf
    exact hnames q (by simpa using List.mem_filterMap.mp hqm) (by simpa using hqc)
  have hplne : pendingPipeList s ≠ [] := by
    rw [hlist]
    exact specCommaJoin_ne_nil _ hspecne helemne
  unfold handleStartProcessPacket
  rw [hchild]
  rw [if_neg (by simp)]
  rw [hclosing]
  rw [if_neg (by simp)]
  simp only [hplne, if_pos, ne_eq, not_false_eq_true, if_true]
  rw [hlist]

/-- Witness for C1: with the input pipe and the configured secondary-output
pipe still connecting, the handler replies PipesStillOpen listing exactly
those two names, comma-joined, and leaves the state alone. -/
theorem startProcess_pipesStillOpen_w :
    handleStartProcessPacket
        ⟨⟨[105, 110], true⟩, ⟨[111, 117, 116], false⟩, some ⟨[101, 114, 114], true⟩,
          none, false, false⟩
        (some ⟨0, false, false, [], [], [], [], []⟩)
        (fun _ => .error 5) (fun h => h) =
      .reply (.pipesStillOpen [105, 110, 44, 32, 101, 114, 114])
        ⟨⟨[105, 110], true⟩, ⟨[111, 117, 116], false⟩, some ⟨[101, 114, 114], true⟩,
          none, false, false⟩ := by
  have h := startProcess_pipesStillOpen
    ⟨⟨[105, 110], true⟩, ⟨[111, 117, 116], false⟩, some ⟨[101, 114, 114], true⟩,
      none, false, false⟩
    ⟨0, false, false, [], [], [], [], []⟩
    (fun _ => .error 5) (fun h => h)
    rfl rfl (Or.inl rfl) (by decide) (by decide)
    (fun p hp => by cases hp; decide)
  exact h.trans (by decide)

/-- Claim C5: a StartProcess request while a child process is already
tracked, or after the auto-shutdown closing phase has begun, hits a fatal
assertion whatever the request bytes decode to (even a malformed request),
so the tracked child-process record is never silently overwritten. -/
theorem startProcess_duplicate_spawn_fatal (s : SpawnState)
    (parsed : Option SpawnRequest)
    (os : SpawnRequest → Except Nat ProcInfo) (dup : Nat → Nat)
    (h : s.childProcess ≠ none ∨ s.closingOutputPipes = true) :
    handleStartProcessPacket s parsed os dup = .fatalAssert := by
  unfold handleStartProcessPacket
  rcases h with h | h
  · rw [if_pos (Option.ne_none_iff_isSome.mp h)]
  · by_cases hc : s.childProcess.isSome = true
    · rw [if_pos hc]
    · rw [if_neg hc, if_pos h]

/-- Witness for C5: a second spawn attempt with a tracked child faults even
on an unparsable request. -/
theorem startProcess_duplicate_spawn_fatal_w :
    handleStartProcessPacket
        ⟨⟨[105, 110], false⟩, ⟨[111, 117, 116], false⟩, none, some 7, true, false⟩
        none (fun _ => .error 0) (fun h => h) = .fatalAssert :=
  startProcess_duplicate_spawn_fatal _ _ _ _ (Or.inl (by decide))

theorem closeIfDrained_eq (p : OutPipe) :
    closeIfDrained p = ⟨p.closed || p.bytesToSend == 0, p.bytesToSend⟩ := by
  rcases p with ⟨c, n⟩
  cases c
  · unfold closeIfDrained
    cases hn : n == 0 <;> simp [hn]
  · simp [closeIfDrained]

/-- Claim C2: outbound pipes close only via the drain-gated auto-close
pass: each one closes exactly when the closing phase is active, it is still
open and its own pending send bytes are zero (independently of the other
pipe), and never while its pending count is nonzero; the tick that detects
the child's exit flips into the closing phase, clears the child record, yet
still performs that tick's scrape pass, while later closing-phase ticks
scrape no more. -/
theorem autoShutdown_drain_close (s t : LoopState) (em : Bool) (a b : Nat) :
    ((autoClosePipesForShutdown t).conout.closed =
        (t.conout.closed || (t.closingOutputPipes && t.conout.bytesToSend == 0))) ∧
    ((autoClosePipesForShutdown t).conout.bytesToSend = t.conout.bytesToSend) ∧
    (∀ p, t.conerr = some p →
        (autoClosePipesForShutdown t).conerr =
          some ⟨p.closed || (t.closingOutputPipes && p.bytesToSend == 0),
                p.bytesToSend⟩) ∧
    (t.conerr = none → (autoClosePipesForShutdown t).conerr = none) ∧
    ((onPollTimeout s em a b).scraped = !s.closingOutputPipes) ∧
    (s.autoShutdown = true → s.childProcess = some true →
        (onPollTimeout s em a b).state.closingOutputPipes = true ∧
        (onPollTimeout s em a b).state.childProcess = none) ∧
    ((onPollTimeout s em a b).state.conout.closed = true →
        s.conout.closed = true ∨ (onPollTimeout s em a b).state.conout.bytesToSend = 0) ∧
    (∀ p q, s.conerr = some p → (onPollTimeout s em a b).state.conerr = some q →
        q.closed = true → p.closed = true ∨ q.bytesToSend = 0) := by
  have hclosed : ∀ u : LoopState, (autoClosePipesForShutdown u).conout.closed =
      (u.conout.closed || (u.closingOutputPipes && u.conout.bytesToSend == 0)) := by
    intro u
    unfold autoClosePipesForShutdown
    cases hc : u.closingOutputPipes <;> simp [closeIfDrained_eq]
  have hbytes : ∀ u : LoopState, (autoClosePipesForShutdown u).conout.bytesToSend =
      u.conout.bytesToSend := by
    intro u
    unfold autoClosePipesForShutdown
    cases hc : u.closingOutputPipes <;> simp [closeIfDrained_eq]
  have herr : ∀ (u : LoopState) (p : OutPipe), u.conerr = some p →
      (autoClosePipesForShutdown u).conerr =
        some ⟨p.closed || (u.closingOutputPipes && p.bytesToSend == 0),
              p.bytesToSend⟩ := by
    intro u p hp
    unfold autoClosePipesForShutdown
    cases hc : u.closingOutputPipes <;> simp [hp, closeIfDrained_eq]
  have herrn : ∀ u : LoopState, u.conerr = none →
      (autoClosePipesForShutdown u).conerr = none := by
    intro u hp
    unfold autoClosePipesForShutdown
    cases hc : u.closingOutputPipes <;> simp [hp]
  refine ⟨hclosed t, hbytes t, herr t, herrn t, rfl, ?_, ?_, ?_⟩
  · intro hA hP
    obtain ⟨⟨oc, ob⟩, cerr, cl, ash, ch⟩ := s
    cases hA
    cases hP
    cases cl <;>
      simp [onPollTimeout, autoClosePipesForShutdown, closeIfDrained_eq]
  · intro hcl
    obtain ⟨⟨oc, ob⟩, cerr, cl, ash, ch⟩ := s
    cases ash <;> cases cl <;> cases oc <;>
      rcases ch with _ | b <;>
      try cases b
    all_goals
      try simp only [onPollTimeout, autoClosePipesForShutdown, closeIfDrained_eq] at hcl ⊢
    all_goals
      try simp at hcl ⊢
    all_goals try omega
  · intro p q hp hq hqc
    obtain ⟨⟨oc, ob⟩, cerr, cl, ash, ch⟩ := s
    cases hp
    cases ash <;> cases cl <;>
      rcases ch with _ | b <;>
      try cases b
    all_goals
      try simp only [onPollTimeout, autoClosePipesForShutdown, closeIfDrained_eq,
        Option.map_some] at hq
    all_goals
      try simp at hq
    all_goals try rw [closeIfDrained_eq] at hq
    all_goals subst hq
    all_goals
      first
      | exact Or.inl hqc
      | (cases hpc : p.closed with
         | true => exact Or.inl rfl
         | false =>
             rw [hpc] at hqc
             exact Or.inr (by simpa using hqc))

/-- Witness for C2: a drained open primary closes while the secondary with
3 pending bytes stays open; a tick seeing the exited child flips to closing
and still scrapes. -/
theorem autoShutdown_drain_close_w :
    (autoClosePipesForShutdown
        ⟨⟨false, 0⟩, some ⟨false, 3⟩, true, true, none⟩).conout.closed = true ∧
    (autoClosePipesForShutdown
        ⟨⟨false, 0⟩, some ⟨false, 3⟩, true, true, none⟩).conerr = some ⟨false, 3⟩ ∧
    (onPollTimeout ⟨⟨false, 5⟩, some ⟨false, 0⟩, false, true, some true⟩
        true 2 0).state.closingOutputPipes = true ∧
    (onPollTimeout ⟨⟨false, 5⟩, some ⟨false, 0⟩, false, true, some true⟩
        true 2 0).scraped = true := by
  have h := autoShutdown_drain_close
    ⟨⟨false, 5⟩, some ⟨false, 0⟩, false, true, some true⟩
    ⟨⟨false, 0⟩, some ⟨false, 3⟩, true, true, none⟩ true 2 0
  refine ⟨h.1.trans (by decide), ?_, (h.2.2.2.2.2.1 rfl rfl).1,
    h.2.2.2.2.1.trans (by decide)⟩
  exact (h.2.2.1 ⟨false, 3⟩ rfl).trans (by decide)

/-- Claim C6: a SetSize request with out-of-range cols or rows leaves the
geometry and the mouse rectangle unchanged yet still produces exactly one
empty success reply, and every SetSize request produces exactly one reply
whatever the validation outcome. -/
theorem setSize_invalid_ignored (maxW blc : Int)
    (eff : Int → Int → ResizeState → ResizeState) (s : ResizeState)
    (cols rows : Int)
    (hbad : cols < 1 ∨ cols > maxW ∨ rows < 1 ∨ rows > blc - 1) :
    handleSetSizePacket maxW blc eff s cols rows = (s, [ReplyPacket.emptyAck]) ∧
    ∀ c r : Int, (handleSetSizePacket maxW blc eff s c r).2 = [ReplyPacket.emptyAck] := by
  constructor
  · unfold handleSetSizePacket resizeWindow
    rw [if_pos (by rcases hbad with h | h | h | h <;> simp [h])]
  · intro c r
    rfl

/-- Witness for C6: SetSize(cols = 0, rows = 24) with a state-bumping
scraper effect: the state is untouched and the reply is one empty ack. -/
theorem setSize_invalid_ignored_w :
    handleSetSizePacket 2500 3000
        (fun _ _ st => ⟨st.geometry + 1, st.mouseWindowRect + 1⟩)
        ⟨0, 0⟩ 0 24 = (⟨0, 0⟩, [ReplyPacket.emptyAck]) :=
  (setSize_invalid_ignored 2500 3000
      (fun _ _ st => ⟨st.geometry + 1, st.mouseWindowRect + 1⟩)
      ⟨0, 0⟩ 0 24 (Or.inl (by decide))).1

/-- Claim C7: freeze calibration probes with Mark at cursor (1, 1) and
keeps Mark exactly when the probe coordinate is unchanged; in particular,
when Mark moves the probe cursor, SelectAll is selected, and whenever at
least one of the two primitives preserves the probe coordinate the selected
one does. -/
theorem freeze_calibration_selects_nonmoving (plat : FreezePlatform)
    (console : FreezeConsole) (buffer : ProbeBuffer)
    (h : console.frozen = false) :
    ((initConsoleFreezeMethod plat console buffer).map
        (fun r => r.1.freezeUsesMark) =
      some (plat.cursorAfterFreeze true (1, 1) == (1, 1))) ∧
    (plat.cursorAfterFreeze true (1, 1) ≠ (1, 1) →
      (initConsoleFreezeMethod plat console buffer).map
          (fun r => r.1.freezeUsesMark) = some false) ∧
    (∀ um, (initConsoleFreezeMethod plat console buffer).map
          (fun r => r.1.freezeUsesMark) = some um →
      (plat.cursorAfterFreeze true (1, 1) = (1, 1) ∨
       plat.cursorAfterFreeze false (1, 1) = (1, 1)) →
      plat.cursorAfterFreeze um (1, 1) = (1, 1)) := by
  have hfr : ¬(console.frozen = true) := by simp [h]
  have key : (initConsoleFreezeMethod plat console buffer).map
      (fun r => r.1.freezeUsesMark) =
      some (plat.cursorAfterFreeze true (1, 1) == (1, 1)) := by
    simp only [initConsoleFreezeMethod]
    rw [if_neg hfr]
    rfl
  refine ⟨key, ?_, ?_⟩
  · intro hne
    rw [key]
    exact congrArg some (beq_eq_false_iff_ne.mpr hne)
  · intro um hum hpres
    rw [key] at hum
    have := Option.some.inj hum
    subst this
    by_cases hm : plat.cursorAfterFreeze true (1, 1) = (1, 1)
    · have ht : (plat.cursorAfterFreeze true (1, 1) == (1, 1)) = true :=
        beq_iff_eq.mpr hm
      rw [ht]
      exact hm
    · have hf : (plat.cursorAfterFreeze true (1, 1) == (1, 1)) = false :=
        beq_eq_false_iff_ne.mpr hm
      rw [hf]
      rcases hpres with h1 | h1
      · exact absurd h1 hm
      · exact h1

/-- Witness for C7: on a platform where Mark moves the probe cursor to
(0, 0) and SelectAll leaves it alone, SelectAll is selected. -/
theorem freeze_calibration_selects_nonmoving_w :
    (initConsoleFreezeMethod ⟨fun m p => if m then (0, 0) else p⟩
        ⟨false, false⟩ ⟨80, 25, 0, 0, 10, 10, 3, 4⟩).map
      (fun r => r.1.freezeUsesMark) = some false := by
  have h := freeze_calibration_selects_nonmoving
    ⟨fun m p => if m then (0, 0) else p⟩ ⟨false, false⟩
    ⟨80, 25, 0, 0, 10, 10, 3, 4⟩ rfl
  exact h.2.1 (by decide)

/-- Claim C8: one title-sync pass writes the title escape sequence exactly
when the console title differs from the cache, afterwards the cache always
equals the console title (the last value written when a write happened),
and a repeated pass with the same title writes nothing more. -/
theorem syncConsoleTitle_writes_iff_changed (u8 : List Nat → List Nat)
    (s : TitleState) :
    (syncConsoleTitle u8 s).currentTitle = s.consoleTitle ∧
    (syncConsoleTitle u8 s).conoutWrites =
      (if s.consoleTitle = s.currentTitle then s.conoutWrites
       else s.conoutWrites ++ [titleCommand u8 s.consoleTitle]) ∧
    (syncConsoleTitle u8 s).consoleTitle = s.consoleTitle ∧
    syncConsoleTitle u8 (syncConsoleTitle u8 s) = syncConsoleTitle u8 s := by
  by_cases h : s.consoleTitle = s.currentTitle
  · simp [syncConsoleTitle, h]
  · simp [syncConsoleTitle, h]

end WinptyAgent
